import Mathlib

/-!
Verification of the unified-trust-console policy-decision core.

Shallow embedding of the repository's core logic:
* `src/utc/services/queueing.py` — `QueueingService` (EWMA load estimator),
* `src/utc/services/rules.py` — `RulesService` (rule evaluation, toggles,
  policy-change receipts),
* `src/utc/services/signer.py` — `SigningService` (JWT-style receipt
  signing/verification),
* `src/utc/models/feature.py`, `rule.py`, `receipt.py` — the data model.

Python floats are embedded as rationals (`ℚ`); machine timestamps as `ℕ`.
The SQLAlchemy session is embedded as an explicit `Store` value holding the
rule rows, feature rows and receipt rows; `query(...).filter_by(...).first()`
becomes `List.find?`, `db.add` becomes list append, and in-place mutation of
a fetched ORM object becomes first-match replacement in the list.
-/

deriving instance DecidableEq for Except

namespace UTC

/-- A row of the `rules` table (`src/utc/models/rule.py`).
`value` is an integer 0/1 as in the source (validated to be 0 or 1 by
`Rule.__init__`); `updated_at` is the ORM-maintained modification timestamp. -/
structure Rule where
  key : String
  value : Int
  updated_at : Nat
deriving DecidableEq, Repr

/-- `Rule.is_enabled` from `src/utc/models/rule.py`: `value == 1`. -/
def Rule.is_enabled (r : Rule) : Bool :=
  r.value == 1

/-- A row of the `features` table (`src/utc/models/feature.py`), restricted to
the fields the core logic reads: unit id and the λ/μ/ρ estimates. -/
structure Feature where
  unit : String
  lambda_est : ℚ
  mu_est : ℚ
  rho : ℚ
deriving DecidableEq, Repr

/-- `Feature.is_overloaded`: `rho >= 0.9` (hardcoded in the model). -/
def Feature.is_overloaded (f : Feature) : Bool :=
  decide (mkRat 9 10 ≤ f.rho)

/-- `Feature.needs_approval_mode`: `0.6 <= rho < 0.9` (hardcoded in the model). -/
def Feature.needs_approval_mode (f : Feature) : Bool :=
  decide (mkRat 6 10 ≤ f.rho ∧ f.rho < mkRat 9 10)

/-- `Feature.get_protection_level` from `src/utc/models/feature.py`:
overloaded → `read_only`, approval mode → `require_approval`,
else `permissive`.  Note it uses the fixed constants 0.9 / 0.6. -/
def Feature.get_protection_level (f : Feature) : String :=
  if f.is_overloaded then "read_only"
  else if f.needs_approval_mode then "require_approval"
  else "permissive"

/-- A row of the `receipts` table (`src/utc/models/receipt.py`), restricted to
the fields the claims are about (the `rules` JSON column is embedded as the
list it deserializes to). -/
structure Receipt where
  subject : String
  action : String
  decision : String
  rules : List String
  reason : String
  signature : Option String
deriving DecidableEq, Repr

/-- The visible database state: the three tables the core reads and writes. -/
structure Store where
  rules : List Rule
  features : List Feature
  receipts : List Receipt
deriving DecidableEq, Repr

/-- The configuration of `QueueingService.__init__`
(`src/utc/services/queueing.py`): EWMA factor and the two thresholds. -/
structure QueueingService where
  alpha : ℚ
  threshold_low : ℚ
  threshold_high : ℚ
deriving DecidableEq, Repr

/-- The validation performed by `QueueingService.__init__`: it raises unless
`0 < alpha < 1` and `0 < low < high < 1`. -/
def QueueingService.valid (q : QueueingService) : Prop :=
  0 < q.alpha ∧ q.alpha < 1 ∧
    0 < q.threshold_low ∧ q.threshold_low < q.threshold_high ∧ q.threshold_high < 1

/-- `QueueingService.get_feature`: `query(Feature).filter_by(unit=unit).first()`. -/
def get_feature (s : Store) (unit : String) : Option Feature :=
  s.features.find? (fun f => f.unit == unit)

/-- `QueueingService._calculate_rho`: raises `ValueError` when `mu_est <= 0`
(the source message interpolates the offending value; the constant prefix is
kept here), else returns `min (lambda/mu) 0.99`. -/
def calculate_rho (lambda_est mu_est : ℚ) : Except String ℚ :=
  if mu_est ≤ 0 then .error "Service rate must be positive"
  else .ok (min (lambda_est / mu_est) (mkRat 99 100))

/-- The validation in `Feature.__init__` (`src/utc/models/feature.py`):
`0 <= rho <= 1`, `lambda >= 0`, `mu > 0`, else `ValueError`. -/
def mkFeature (unit : String) (lambda_est mu_est rho : ℚ) : Except String Feature :=
  if ¬ (0 ≤ rho ∧ rho ≤ 1) then .error "Rho must be 0.0-1.0"
  else if lambda_est < 0 then .error "Lambda must be >= 0"
  else if mu_est ≤ 0 then .error "Mu must be > 0"
  else .ok ⟨unit, lambda_est, mu_est, rho⟩

/-- Replace the first feature row whose unit matches (the embedding of
mutating the ORM object returned by `get_feature` and flushing). -/
def replace_feature : List Feature → String → Feature → List Feature
  | [], _, _ => []
  | f :: fs, unit, f' =>
    if f.unit == unit then f' :: fs else f :: replace_feature fs unit f'

/-- `QueueingService.get_or_create_feature`: return the stored feature, or
build one from the initial estimates (default 1.0 / 10.0 at every call site in
the core), validate it and add it to the session.  Errors propagate before
anything is added. -/
def get_or_create_feature (s : Store) (unit : String)
    (initial_lambda initial_mu : ℚ) : Except String Feature × Store :=
  match get_feature s unit with
  | some f => (.ok f, s)
  | none =>
    match calculate_rho initial_lambda initial_mu with
    | .error e => (.error e, s)
    | .ok rho =>
      match mkFeature unit initial_lambda initial_mu rho with
      | .error e => (.error e, s)
      | .ok f => (.ok f, { s with features := s.features ++ [f] })

/-- `QueueingService.update_feature`: get-or-create (with the default seeds
1.0 / 10.0), apply the EWMA formulas, recompute ρ, then write the three fields
back.  An error from `_calculate_rho` propagates before the write-back, so the
stored row keeps its old values (though a feature lazily created by
`get_or_create_feature` stays in the session). -/
def QueueingService.update_feature (q : QueueingService) (s : Store)
    (unit : String) (arrival_rate service_rate : ℚ) : Except String Feature × Store :=
  match get_or_create_feature s unit 1 10 with
  | (.error e, s1) => (.error e, s1)
  | (.ok f, s1) =>
    let new_lambda := q.alpha * arrival_rate + (1 - q.alpha) * f.lambda_est
    let new_mu := q.alpha * service_rate + (1 - q.alpha) * f.mu_est
    match calculate_rho new_lambda new_mu with
    | .error e => (.error e, s1)
    | .ok new_rho =>
      let f' : Feature := { f with lambda_est := new_lambda, mu_est := new_mu, rho := new_rho }
      (.ok f', { s1 with features := replace_feature s1.features unit f' })

/-- `QueueingService.get_protection_level`: lazily get-or-create the feature
(default seeds), then delegate to `Feature.get_protection_level`.  The
service's configured thresholds are not consulted here. -/
def QueueingService.get_protection_level (q : QueueingService) (s : Store)
    (unit : String) : Except String String × Store :=
  match get_or_create_feature s unit 1 10 with
  | (.error e, s1) => (.error e, s1)
  | (.ok f, s1) => (.ok f.get_protection_level, s1)

/-- `QueueingService.should_auto_relax`: `False` when no feature row exists,
else `rho < 0.5`.  It only reads the store. -/
def should_auto_relax (s : Store) (unit : String) : Bool :=
  match get_feature s unit with
  | none => false
  | some f => decide (f.rho < mkRat 1 2)

/-- The decision value produced by `RulesService.evaluate_rules_for_action`
(the dictionary with keys `decision`, `rules`, `reason`). -/
structure Decision where
  decision : String
  rules : List String
  reason : String
deriving DecidableEq, Repr

/-- `RulesService.get_rule` / `get_rule_by_key`:
`query(Rule).filter_by(key=key).first()`. -/
def get_rule (s : Store) (rule_key : String) : Option Rule :=
  s.rules.find? (fun r => r.key == rule_key)

/-- `RulesService.is_rule_enabled`: `rule.is_enabled() if rule else False` —
a missing rule row is reported as disabled, not as an error. -/
def is_rule_enabled (s : Store) (rule_key : String) : Bool :=
  match get_rule s rule_key with
  | some r => r.is_enabled
  | none => false

/-- `action.startswith("write:")` from
`RulesService.evaluate_rules_for_action`. -/
def is_write_action (action : String) : Bool :=
  "write:".data.isPrefixOf action.data

/-- `RulesService.evaluate_rules_for_action` (`src/utc/services/rules.py`):
first-match-wins over the two rule flags only — it never reads the feature
table or any protection level. -/
def evaluate_rules_for_action (s : Store) (action : String) : Decision :=
  let is_write := is_write_action action
  if is_write && is_rule_enabled s "read_only_for_risky" then
    { decision := "DENY"
    , rules := ["read_only_for_risky"]
    , reason := "Read-only mode active for risky units" }
  else if is_write && is_rule_enabled s "writes_require_approval" then
    { decision := "REQUIRE_APPROVAL"
    , rules := ["writes_require_approval"]
    , reason := "Approval required for writes" }
  else
    { decision := "ALLOW"
    , rules := []
    , reason := "No restrictive policies active" }

/-- `RulesService._create_policy_change_receipt`: the POLICY_CHANGE audit
receipt built for a rule toggle (fields restricted as in `Receipt`). -/
def policy_change_receipt (rule_key : String) (old_state new_state : Bool)
    (changed_by : String) : Receipt :=
  { subject := changed_by
  , action := "policy_change:" ++ rule_key
  , decision := "POLICY_CHANGE"
  , rules := [rule_key]
  , reason := "Policy changed: " ++ rule_key ++ " "
      ++ (if new_state then "enabled" else "disabled")
      ++ " (was " ++ (if old_state then "enabled" else "disabled") ++ ")"
  , signature := none }

/-- Replace the first rule row whose key matches (the embedding of mutating
the ORM object returned by `get_rule` and flushing). -/
def replace_rule : List Rule → String → Rule → List Rule
  | [], _, _ => []
  | r :: rs, rule_key, r' =>
    if r.key == rule_key then r' :: rs else r :: replace_rule rs rule_key r'

/-- `RulesService.set_rule`: look up the rule (`ValueError` when absent),
write the new 0/1 value, then emit a POLICY_CHANGE receipt only when the
state actually changed.  The `updated_at` column carries SQLAlchemy's
`onupdate` timestamp: at flush the unit of work issues an UPDATE (and hence a
fresh timestamp) only when the attribute's value net-changed — assigning the
already-stored value leaves the row untouched. -/
def set_rule (s : Store) (rule_key : String) (enabled : Bool)
    (create_receipt : Bool) (changed_by : String) (now : Nat) :
    Except String Rule × Store :=
  match get_rule s rule_key with
  | none => (.error ("Rule not found: " ++ rule_key), s)
  | some rule =>
    let old_state := rule.is_enabled
    let newVal : Int := if enabled then 1 else 0
    let rule' : Rule :=
      if rule.value = newVal then rule
      else { rule with value := newVal, updated_at := now }
    let s1 : Store := { s with rules := replace_rule s.rules rule_key rule' }
    if create_receipt && (old_state != enabled) then
      (.ok rule', { s1 with
        receipts := s1.receipts ++ [policy_change_receipt rule_key old_state enabled changed_by] })
    else
      (.ok rule', s1)

/-- `RulesService.toggle_rule`: look up the rule (`ValueError` when absent)
and delegate to `set_rule` with the negated state. -/
def toggle_rule (s : Store) (rule_key : String) (create_receipt : Bool)
    (changed_by : String) (now : Nat) : Except String Rule × Store :=
  match get_rule s rule_key with
  | none => (.error ("Rule not found: " ++ rule_key), s)
  | some rule => set_rule s rule_key (!rule.is_enabled) create_receipt changed_by now

/-- The operations of the public contract acting on the store (rule
evaluation, rule toggles, observations, level queries, relax checks). -/
inductive Op where
  | evalAction (action : String)
  | doSetRule (rule_key : String) (enabled : Bool) (create_receipt : Bool)
      (changed_by : String) (now : Nat)
  | doToggleRule (rule_key : String) (create_receipt : Bool)
      (changed_by : String) (now : Nat)
  | observe (unit : String) (arrival_rate service_rate : ℚ)
  | queryLevel (unit : String)
  | queryRelax (unit : String)
deriving Repr

/-- The store after one public operation.  `evaluate_rules_for_action` and
`should_auto_relax` only read; the others thread the session state (on a
raised error the caller's transaction keeps the pre-call store). -/
def step (q : QueueingService) (s : Store) : Op → Store
  | .evalAction _ => s
  | .doSetRule k e cr cb now => (set_rule s k e cr cb now).2
  | .doToggleRule k cr cb now => (toggle_rule s k cr cb now).2
  | .observe u a sv => (q.update_feature s u a sv).2
  | .queryLevel u => (q.get_protection_level s u).2
  | .queryRelax _ => s

/-- The store after a sequence of public operations. -/
def run (q : QueueingService) (s : Store) (ops : List Op) : Store :=
  ops.foldl (step q) s

/-- The JWT payload built by `SigningService.sign_receipt`
(`src/utc/services/signer.py`): the caller's claim map (embedded as an
association list of string claims) plus the stamped `iat` and optional `exp`
timestamps (seconds). -/
structure JwtPayload where
  claims : List (String × String)
  iat : Nat
  exp : Option Nat
deriving DecidableEq, Repr

/-- Serialize a claim map for MAC computation. Modelled from the spec:
the compact payload encoding of the three-part token. -/
def encode_pairs : List (String × String) → String
  | [] => ""
  | (k, v) :: rest => k ++ "=" ++ v ++ ";" ++ encode_pairs rest

/-- Serialize a payload for MAC computation. Modelled from the spec:
the compact payload encoding of the three-part token. -/
def encode_payload (p : JwtPayload) : String :=
  encode_pairs p.claims ++ "|iat=" ++ toString p.iat ++ "|exp="
    ++ (match p.exp with | some e => toString e | none => "none")

/-- Keyed MAC over the encoded payload. Modelled from the spec: the
HMAC-SHA256 keyed MAC computed by the external `jwt` library is not part of
this repository; it is modelled as a concrete keyed hash of the secret and
the message (a 64-bit polynomial rolling hash). -/
def mac_tag (secret msg : String) : Nat :=
  (secret ++ "." ++ msg).foldl (fun h c => (h * 131 + c.toNat) % (2 ^ 64)) 5381

/-- The signed three-part token: payload plus MAC tag. -/
structure Token where
  payload : JwtPayload
  sig : Nat
deriving DecidableEq, Repr

/-- `SigningService.sign_receipt`: copy the claim map, stamp `iat` with the
current time, stamp `exp = now + expiry_hours*3600` only when `expiry_hours`
is truthy (Python `if expiry_hours:` is false for both `None` and `0`), and
MAC the result with the shared secret. -/
def sign_receipt (secret : String) (receipt_data : List (String × String))
    (now : Nat) (expiry_hours : Option Nat) : Token :=
  let exp : Option Nat :=
    match expiry_hours with
    | some h => if h = 0 then none else some (now + h * 3600)
    | none => none
  let payload : JwtPayload := { claims := receipt_data, iat := now, exp := exp }
  { payload := payload, sig := mac_tag secret (encode_payload payload) }

/-- Whether the `exp` claim has passed. Modelled from the spec: an expiry
claim in the past fails verification. -/
def jwt_expired : Option Nat → Nat → Bool
  | none, _ => false
  | some e, now => e ≤ now

/-- `SigningService.verify_receipt`: recompute the MAC over the received
payload and compare; a mismatch fails (tampering), a passed `exp` fails
(expired, checked only when `verify_exp`), otherwise the decoded payload is
returned. -/
def verify_receipt (secret : String) (t : Token) (now : Nat)
    (verify_exp : Bool) : Except String JwtPayload :=
  if t.sig ≠ mac_tag secret (encode_payload t.payload) then
    .error "Receipt signature is invalid - possible tampering detected!"
  else if verify_exp && jwt_expired t.payload.exp now then
    .error "Receipt signature has expired"
  else
    .ok t.payload

/-- Modelled from the spec: the load-based protection level the spec's
PolicyEngine consults for the unit implied by an action — the LoadEstimator's
current level, with an unknown unit lazily seeded with the conservative
defaults λ=1, μ=10 (hence ρ=0.1). -/
def spec_protection_level (s : Store) (unit : String) : String :=
  match get_feature s unit with
  | some f => f.get_protection_level
  | none => Feature.get_protection_level ⟨unit, 1, 10, mkRat 1 10⟩

/-- Modelled from the spec: the four-step first-match-wins evaluation
precedence of §4.3 — (1) write ∧ `read_only_for_risky` ∧ level `read_only` →
DENY; (2) write ∧ `writes_require_approval` → REQUIRE_APPROVAL; (3) write ∧
level `require_approval` → REQUIRE_APPROVAL with no matched rule and a
load-based reason; (4) ALLOW. -/
def spec_evaluate (s : Store) (action unit : String) : Decision :=
  let is_write := is_write_action action
  let level := spec_protection_level s unit
  if is_write && is_rule_enabled s "read_only_for_risky" && (level == "read_only") then
    { decision := "DENY"
    , rules := ["read_only_for_risky"]
    , reason := "Read-only mode active for risky units" }
  else if is_write && is_rule_enabled s "writes_require_approval" then
    { decision := "REQUIRE_APPROVAL"
    , rules := ["writes_require_approval"]
    , reason := "Approval required for writes" }
  else if is_write && (level == "require_approval") then
    { decision := "REQUIRE_APPROVAL"
    , rules := []
    , reason := "Writes require approval due to elevated load (load-based)" }
  else
    { decision := "ALLOW"
    , rules := []
    , reason := "No restrictive policies active" }

/-- Modelled from the spec: the protection-level mapping as a pure function
of ρ against two configured thresholds `low < high` — ρ<low → `permissive`;
low≤ρ<high → `require_approval`; ρ≥high → `read_only`. -/
def spec_level (low high rho : ℚ) : String :=
  if rho < low then "permissive"
  else if rho < high then "require_approval"
  else "read_only"

/-- The λ/μ pair an observation starts from: the stored estimates when the
unit has a feature row, else the conservative defaults (1.0, 10.0) that
`update_feature` seeds through `get_or_create_feature`. -/
def seed_of (s : Store) (unit : String) : ℚ × ℚ :=
  match get_feature s unit with
  | some f => (f.lambda_est, f.mu_est)
  | none => (1, 10)

/-- The service built from the default settings
(`queue_alpha=0.3`, `queue_threshold_low=0.6`, `queue_threshold_high=0.9`). -/
def default_service : QueueingService :=
  ⟨mkRat 3 10, mkRat 6 10, mkRat 9 10⟩

end UTC

namespace UTC

example : should_auto_relax ⟨[], [], []⟩ "u" = false := by decide
example : should_auto_relax ⟨[], [⟨"u", 4, 10, mkRat 2 5⟩], []⟩ "u" = true := by decide
example : Feature.get_protection_level ⟨"u", 1, 10, mkRat 1 10⟩ = "permissive" := by decide
example : Feature.get_protection_level ⟨"u", 95, 100, mkRat 19 20⟩ = "read_only" := by decide

/-- A feature row found by unit carries that unit id. -/
theorem get_feature_unit_eq (s : Store) (unit : String) (f : Feature)
    (hf : get_feature s unit = some f) : f.unit = unit := by
  have h := List.find?_some hf
  exact eq_of_beq h

/-- Searching an appended list when the first part has no match. -/
theorem find?_append_of_none {α : Type} (p : α → Bool) (l₁ l₂ : List α)
    (h : l₁.find? p = none) : (l₁ ++ l₂).find? p = l₂.find? p := by
  induction l₁ with
  | nil => rfl
  | cons a l ih =>
    cases hp : p a with
    | true =>
      rw [List.find?_cons_of_pos _ hp] at h
      exact absurd h (by simp)
    | false =>
      rw [List.find?_cons_of_neg _ (by simp [hp])] at h
      rw [List.cons_append, List.find?_cons_of_neg _ (by simp [hp])]
      exact ih h

/-- Replacing the first matching feature row makes it the lookup result. -/
theorem replace_feature_find? (l : List Feature) (unit : String) (f f' : Feature)
    (hf : l.find? (fun g => g.unit == unit) = some f) (hu : f'.unit = unit) :
    (replace_feature l unit f').find? (fun g => g.unit == unit) = some f' := by
  induction l with
  | nil => simp [List.find?] at hf
  | cons a l ih =>
    by_cases hp : (a.unit == unit) = true
    · rw [replace_feature, if_pos hp]
      exact List.find?_cons_of_pos _ (by simp [hu])
    · rw [List.find?_cons_of_neg _ (by simpa using hp)] at hf
      rw [replace_feature, if_neg hp, List.find?_cons_of_neg _ (by simpa using hp)]
      exact ih hf

/-- Writing back the very rule row the lookup returned is a no-op. -/
theorem replace_rule_self (l : List Rule) (k : String) (r : Rule)
    (h : l.find? (fun x => x.key == k) = some r) : replace_rule l k r = l := by
  induction l with
  | nil => rfl
  | cons a l ih =>
    by_cases hp : (a.key == k) = true
    · rw [@List.find?_cons_of_pos _ (fun x => x.key == k) a l hp] at h
      injection h with h
      rw [replace_rule, if_pos hp, h]
    · rw [List.find?_cons_of_neg _ (by simpa using hp)] at h
      rw [replace_rule, if_neg hp, ih h]

/-- The freshly seeded default feature (λ=1, μ=10, ρ=0.1) sits in the
permissive band. -/
theorem default_feature_level (unit : String) :
    Feature.get_protection_level ⟨unit, 1, 10, mkRat 1 10⟩ = "permissive" := by
  have h1 : ¬ (mkRat 9 10 ≤ (mkRat 1 10 : ℚ)) := by norm_num [Rat.mkRat_eq_div]
  have h2 : ¬ (mkRat 6 10 ≤ (mkRat 1 10 : ℚ)) := by norm_num [Rat.mkRat_eq_div]
  simp [Feature.get_protection_level, Feature.is_overloaded,
    Feature.needs_approval_mode, h1, h2]

/-- Utilization of the default seeds: ρ = min(1/10, 0.99) = 0.1. -/
theorem calculate_rho_default : calculate_rho 1 10 = .ok (mkRat 1 10) := by
  have hmin : min ((1:ℚ)/10) (mkRat 99 100) = mkRat 1 10 := by
    rw [Rat.mkRat_eq_div, Rat.mkRat_eq_div]
    rw [min_eq_left (by norm_num)]
    norm_num
  unfold calculate_rho
  rw [if_neg (by norm_num : ¬ (10:ℚ) ≤ 0), hmin]

/-- The default-seeded feature passes the model validation. -/
theorem mkFeature_default (unit : String) :
    mkFeature unit 1 10 (mkRat 1 10) = .ok ⟨unit, 1, 10, mkRat 1 10⟩ := by
  have hrange : (0:ℚ) ≤ mkRat 1 10 ∧ (mkRat 1 10 : ℚ) ≤ 1 := by
    rw [Rat.mkRat_eq_div]
    norm_num
  unfold mkFeature
  rw [if_neg (not_not_intro hrange), if_neg (by norm_num : ¬ (1:ℚ) < 0),
    if_neg (by norm_num : ¬ (10:ℚ) ≤ 0)]

/-- Lazy creation on a unit with no feature row appends the default-seeded
feature and returns it. -/
theorem get_or_create_feature_none (s : Store) (unit : String)
    (hnone : get_feature s unit = none) :
    get_or_create_feature s unit 1 10
      = (.ok ⟨unit, 1, 10, mkRat 1 10⟩,
          { s with features := s.features ++ [⟨unit, 1, 10, mkRat 1 10⟩] }) := by
  unfold get_or_create_feature
  simp only [hnone, calculate_rho_default, mkFeature_default]

/-- C9: for every unit with a stored feature, `should_auto_relax` returns
true exactly when its ρ is strictly below the separate relax threshold 0.5;
in particular it is false for any ρ in [0.5, 0.6). -/
theorem should_auto_relax_hysteresis (s : Store) (unit : String) (f : Feature)
    (hf : get_feature s unit = some f) :
    (should_auto_relax s unit = true ↔ f.rho < mkRat 1 2) ∧
    (mkRat 1 2 ≤ f.rho ∧ f.rho < mkRat 6 10 → should_auto_relax s unit = false) := by
  unfold should_auto_relax
  rw [hf]
  constructor
  · simp
  · intro h
    simp [not_lt.mpr h.1]

/-- Witness for C9 at ρ = 0.55: the feature is stored, 0.5 ≤ 0.55 < 0.6, and
`should_auto_relax` is false. -/
theorem should_auto_relax_hysteresis_witness :
    should_auto_relax ⟨[], [⟨"u", 11, 20, mkRat 11 20⟩], []⟩ "u" = false :=
  (should_auto_relax_hysteresis ⟨[], [⟨"u", 11, 20, mkRat 11 20⟩], []⟩ "u"
    ⟨"u", 11, 20, mkRat 11 20⟩ (by decide)).2 (by decide)

/-- C10: for a unit with no feature row, `should_auto_relax` returns false
(it reads the store and creates nothing), while `get_protection_level`
lazily creates the default feature (λ=1, μ=10, ρ=0.1) and reports
`permissive`. -/
theorem relax_no_lazy_init (q : QueueingService) (s : Store) (unit : String)
    (hnone : get_feature s unit = none) :
    should_auto_relax s unit = false ∧
    (q.get_protection_level s unit).1 = .ok "permissive" ∧
    (q.get_protection_level s unit).2.features
      = s.features ++ [⟨unit, 1, 10, mkRat 1 10⟩] := by
  refine ⟨?_, ?_, ?_⟩
  · unfold should_auto_relax
    rw [hnone]
  · unfold QueueingService.get_protection_level
    simp only [get_or_create_feature_none s unit hnone]
    simp [default_feature_level]
  · unfold QueueingService.get_protection_level
    simp only [get_or_create_feature_none s unit hnone]

/-- Witness for C10 on an untracked unit against an empty store. -/
theorem relax_no_lazy_init_witness :
    should_auto_relax ⟨[], [], []⟩ "payments-api" = false ∧
    (QueueingService.get_protection_level ⟨mkRat 3 10, mkRat 6 10, mkRat 9 10⟩
        ⟨[], [], []⟩ "payments-api").1 = .ok "permissive" ∧
    (QueueingService.get_protection_level ⟨mkRat 3 10, mkRat 6 10, mkRat 9 10⟩
        ⟨[], [], []⟩ "payments-api").2.features
      = [] ++ [⟨"payments-api", 1, 10, mkRat 1 10⟩] :=
  relax_no_lazy_init ⟨mkRat 3 10, mkRat 6 10, mkRat 9 10⟩ ⟨[], [], []⟩
    "payments-api" (by decide)

/-- C3, counterexample: with both rule rows absent from the store, a write
action evaluates to ALLOW — the failed lookups are treated as disabled rules
and no error is surfaced. -/
theorem absent_rules_allow_counterexample :
    get_rule ⟨[], [], []⟩ "read_only_for_risky" = none ∧
    get_rule ⟨[], [], []⟩ "writes_require_approval" = none ∧
    is_write_action "write:/payments" = true ∧
    (evaluate_rules_for_action ⟨[], [], []⟩ "write:/payments").decision = "ALLOW" := by
  decide

/-- C3, amended: when both rule rows are absent, `is_rule_enabled` reports
them as disabled and every action — writes included — evaluates to the
default ALLOW decision; the evaluation never surfaces an error. -/
theorem absent_rules_fail_open (s : Store) (action : String)
    (h1 : get_rule s "read_only_for_risky" = none)
    (h2 : get_rule s "writes_require_approval" = none) :
    evaluate_rules_for_action s action
      = ⟨"ALLOW", [], "No restrictive policies active"⟩ := by
  unfold evaluate_rules_for_action is_rule_enabled
  rw [h1, h2]
  simp

/-- Witness for C3 (amended) on the empty store and a write action. -/
theorem absent_rules_fail_open_witness :
    evaluate_rules_for_action ⟨[], [], []⟩ "write:/payments"
      = ⟨"ALLOW", [], "No restrictive policies active"⟩ :=
  absent_rules_fail_open ⟨[], [], []⟩ "write:/payments" (by decide) (by decide)

/-- C1, counterexample: with `read_only_for_risky` enabled and the unit at
the default permissive level (no feature rows at all), the spec's four-step
precedence yields ALLOW (step 1 requires the protection level to be
`read_only`), but the code returns DENY — it never consults the load
estimator. -/
theorem eval_precedence_counterexample :
    evaluate_rules_for_action ⟨[⟨"read_only_for_risky", 1, 0⟩], [], []⟩ "write:/x"
      = ⟨"DENY", ["read_only_for_risky"], "Read-only mode active for risky units"⟩ ∧
    spec_evaluate ⟨[⟨"read_only_for_risky", 1, 0⟩], [], []⟩ "write:/x" "/x"
      = ⟨"ALLOW", [], "No restrictive policies active"⟩ ∧
    evaluate_rules_for_action ⟨[⟨"read_only_for_risky", 1, 0⟩], [], []⟩ "write:/x"
      ≠ spec_evaluate ⟨[⟨"read_only_for_risky", 1, 0⟩], [], []⟩ "write:/x" "/x" := by
  decide

/-- C1, amended: `evaluate_rules_for_action` implements a three-step
rule-only precedence — write ∧ `read_only_for_risky` enabled → DENY with
matched rules exactly [`read_only_for_risky`]; else write ∧
`writes_require_approval` enabled → REQUIRE_APPROVAL with matched rules
exactly [`writes_require_approval`]; else ALLOW with no matched rules — and
the decision never depends on the feature table or receipts (there is no
load-based step). -/
theorem eval_rule_only_precedence (s : Store) (action : String) :
    (is_write_action action = true → is_rule_enabled s "read_only_for_risky" = true →
      evaluate_rules_for_action s action
        = ⟨"DENY", ["read_only_for_risky"], "Read-only mode active for risky units"⟩) ∧
    (is_write_action action = true → is_rule_enabled s "read_only_for_risky" = false →
      is_rule_enabled s "writes_require_approval" = true →
      evaluate_rules_for_action s action
        = ⟨"REQUIRE_APPROVAL", ["writes_require_approval"], "Approval required for writes"⟩) ∧
    (is_write_action action = false ∨
      (is_rule_enabled s "read_only_for_risky" = false ∧
        is_rule_enabled s "writes_require_approval" = false) →
      evaluate_rules_for_action s action
        = ⟨"ALLOW", [], "No restrictive policies active"⟩) ∧
    (∀ (fs : List Feature) (rs : List Receipt),
      evaluate_rules_for_action ⟨s.rules, fs, rs⟩ action
        = evaluate_rules_for_action s action) := by
  refine ⟨fun hw hr => ?_, fun hw hr ha => ?_, fun h => ?_, fun fs rs => rfl⟩
  · simp [evaluate_rules_for_action, hw, hr]
  · simp [evaluate_rules_for_action, hw, hr, ha]
  · rcases h with h | ⟨h1, h2⟩
    · simp [evaluate_rules_for_action, h]
    · simp [evaluate_rules_for_action, h1, h2]

/-- Witness for C1 (amended): each of the three decision branches at a
concrete store and action. -/
theorem eval_rule_only_precedence_witness :
    evaluate_rules_for_action ⟨[⟨"read_only_for_risky", 1, 0⟩], [], []⟩ "write:/x"
      = ⟨"DENY", ["read_only_for_risky"], "Read-only mode active for risky units"⟩ ∧
    evaluate_rules_for_action
        ⟨[⟨"read_only_for_risky", 0, 0⟩, ⟨"writes_require_approval", 1, 0⟩], [], []⟩ "write:/x"
      = ⟨"REQUIRE_APPROVAL", ["writes_require_approval"], "Approval required for writes"⟩ ∧
    evaluate_rules_for_action ⟨[], [], []⟩ "read:/x"
      = ⟨"ALLOW", [], "No restrictive policies active"⟩ :=
  ⟨(eval_rule_only_precedence ⟨[⟨"read_only_for_risky", 1, 0⟩], [], []⟩ "write:/x").1
      (by decide) (by decide),
   (eval_rule_only_precedence
      ⟨[⟨"read_only_for_risky", 0, 0⟩, ⟨"writes_require_approval", 1, 0⟩], [], []⟩
      "write:/x").2.1 (by decide) (by decide) (by decide),
   (eval_rule_only_precedence ⟨[], [], []⟩ "read:/x").2.2.1 (Or.inl (by decide))⟩

/-- C2, counterexample: a validly constructed service with thresholds
low=0.2, high=0.3 sees a unit at ρ=0.4 — the spec's mapping against the
configured thresholds gives `read_only`, but the code answers `permissive`
because `Feature.get_protection_level` hardcodes 0.6/0.9. -/
theorem protection_level_counterexample :
    QueueingService.valid ⟨mkRat 3 10, mkRat 1 5, mkRat 3 10⟩ ∧
    (QueueingService.get_protection_level ⟨mkRat 3 10, mkRat 1 5, mkRat 3 10⟩
        ⟨[], [⟨"u", 4, 10, mkRat 2 5⟩], []⟩ "u").1 = .ok "permissive" ∧
    spec_level (mkRat 1 5) (mkRat 3 10) (mkRat 2 5) = "read_only" ∧
    ("permissive" : String) ≠ "read_only" := by
  refine ⟨?_, by decide, by decide, by decide⟩
  unfold QueueingService.valid
  refine ⟨by decide, by decide, by decide, by decide, by decide⟩

/-- C2, amended: for every configured service and every unit with a stored
feature, the protection level is the spec-shaped pure function of the
stored ρ against the FIXED thresholds 0.6 and 0.9 (the constants hardcoded
in `Feature.get_protection_level`); the thresholds the service was
constructed with are never consulted in this path. -/
theorem protection_level_fixed_thresholds (q : QueueingService) (s : Store)
    (unit : String) (f : Feature) (hf : get_feature s unit = some f) :
    q.get_protection_level s unit
      = (.ok (spec_level (mkRat 6 10) (mkRat 9 10) f.rho), s) := by
  have h69 : (mkRat 6 10 : ℚ) < mkRat 9 10 := by norm_num [Rat.mkRat_eq_div]
  have key : f.get_protection_level = spec_level (mkRat 6 10) (mkRat 9 10) f.rho := by
    by_cases h9 : mkRat 9 10 ≤ f.rho
    · have hov : f.is_overloaded = true := by
        simpa [Feature.is_overloaded] using h9
      have hr1 : ¬ (f.rho < mkRat 6 10) := by linarith
      have hr2 : ¬ (f.rho < mkRat 9 10) := by linarith
      rw [Feature.get_protection_level, hov, spec_level, if_neg hr1, if_neg hr2]
      simp
    · by_cases h6 : mkRat 6 10 ≤ f.rho
      · have hov : f.is_overloaded = false := by
          simp [Feature.is_overloaded, h9]
        have hna : f.needs_approval_mode = true := by
          simp [Feature.needs_approval_mode]
          exact ⟨h6, not_le.mp h9⟩
        rw [Feature.get_protection_level, hov, hna, spec_level,
          if_neg (not_lt.mpr h6), if_pos (not_le.mp h9)]
        simp
      · have hov : f.is_overloaded = false := by
          simp [Feature.is_overloaded, h9]
        have hna : f.needs_approval_mode = false := by
          simp [Feature.needs_approval_mode]
          intro h
          exact absurd h (by simpa using h6)
        rw [Feature.get_protection_level, hov, hna, spec_level,
          if_pos (not_le.mp h6)]
        simp
  unfold QueueingService.get_protection_level get_or_create_feature
  simp only [hf, key]

/-- Characterization of a successful observation: whenever the smoothed
service rate stays positive, `update_feature` returns exactly the
EWMA-updated feature — λ and μ seeded from the stored row or, for a fresh
unit, from the defaults (1, 10) — recomputes ρ as the capped quotient, and
stores the row under the unit. -/
theorem update_feature_ok (q : QueueingService) (s : Store) (unit : String)
    (arrival service : ℚ)
    (hmu : 0 < q.alpha * service + (1 - q.alpha) * (seed_of s unit).2) :
    ∃ f', (q.update_feature s unit arrival service).1 = .ok f' ∧
      f'.unit = unit ∧
      f'.lambda_est = q.alpha * arrival + (1 - q.alpha) * (seed_of s unit).1 ∧
      f'.mu_est = q.alpha * service + (1 - q.alpha) * (seed_of s unit).2 ∧
      f'.rho = min (f'.lambda_est / f'.mu_est) (mkRat 99 100) ∧
      get_feature (q.update_feature s unit arrival service).2 unit = some f' := by
  cases hfind : get_feature s unit with
  | some f =>
    have hseed : seed_of s unit = (f.lambda_est, f.mu_est) := by
      unfold seed_of
      rw [hfind]
    have hunit : f.unit = unit := get_feature_unit_eq s unit f hfind
    rw [hseed] at hmu ⊢
    have hcr : calculate_rho (q.alpha * arrival + (1 - q.alpha) * f.lambda_est)
        (q.alpha * service + (1 - q.alpha) * f.mu_est)
        = .ok (min ((q.alpha * arrival + (1 - q.alpha) * f.lambda_est)
            / (q.alpha * service + (1 - q.alpha) * f.mu_est)) (mkRat 99 100)) := by
      unfold calculate_rho
      rw [if_neg (not_le.mpr hmu)]
    have hgoc : get_or_create_feature s unit 1 10 = (.ok f, s) := by
      unfold get_or_create_feature
      simp only [hfind]
    unfold QueueingService.update_feature
    simp only [hgoc, hcr]
    refine ⟨_, rfl, hunit, rfl, rfl, rfl, ?_⟩
    exact replace_feature_find? s.features unit f _ hfind hunit
  | none =>
    have hseed : seed_of s unit = (1, 10) := by
      unfold seed_of
      rw [hfind]
    rw [hseed] at hmu ⊢
    have hcr : calculate_rho (q.alpha * arrival + (1 - q.alpha) * 1)
        (q.alpha * service + (1 - q.alpha) * 10)
        = .ok (min ((q.alpha * arrival + (1 - q.alpha) * 1)
            / (q.alpha * service + (1 - q.alpha) * 10)) (mkRat 99 100)) := by
      unfold calculate_rho
      rw [if_neg (not_le.mpr hmu)]
    unfold QueueingService.update_feature
    simp only [get_or_create_feature_none s unit hfind]
    simp only [hcr]
    refine ⟨_, rfl, rfl, rfl, rfl, rfl, ?_⟩
    have happ : (s.features ++ [(⟨unit, 1, 10, mkRat 1 10⟩ : Feature)]).find?
        (fun g => g.unit == unit) = some ⟨unit, 1, 10, mkRat 1 10⟩ := by
      rw [find?_append_of_none _ s.features _ hfind]
      exact List.find?_cons_of_pos _ (by simp)
    exact replace_feature_find? _ unit _ _ happ rfl

/-- C4, counterexample: for a tracked unit with stored μ = 10 and the default
α = 0.3, an observation with service rate 0 (which is ≤ 0) does not fail —
the smoothed μ' = 0.3·0 + 0.7·10 = 7 stays positive, so the update succeeds
and stores the nonpositive observation. -/
theorem observe_nonpositive_rate_counterexample :
    ((0:ℚ) ≤ 0) ∧
    ∃ f', (default_service.update_feature ⟨[], [⟨"u", 1, 10, mkRat 1 10⟩], []⟩
        "u" 5 0).1 = .ok f'
      ∧ f'.mu_est = default_service.alpha * 0 + (1 - default_service.alpha) * 10 := by
  refine ⟨le_refl 0, ?_⟩
  have hseed : seed_of ⟨[], [⟨"u", 1, 10, mkRat 1 10⟩], []⟩ "u" = (1, 10) := by decide
  obtain ⟨f', h1, -, -, hmu, -, -⟩ :=
    update_feature_ok default_service ⟨[], [⟨"u", 1, 10, mkRat 1 10⟩], []⟩ "u" 5 0
      (by rw [hseed]; norm_num [default_service, Rat.mkRat_eq_div])
  rw [hseed] at hmu
  exact ⟨f', h1, hmu⟩

/-- C4, amended: the failure condition of an observation is on the smoothed
service rate, not the observed one — for a tracked unit, `update_feature`
raises the service-rate error exactly when `α·μ_obs + (1-α)·μ ≤ 0`, and in
that case the store (hence the unit's stored λ, μ, ρ) is unchanged. -/
theorem observe_error_on_smoothed_rate (q : QueueingService) (s : Store)
    (unit : String) (arrival service : ℚ) (f : Feature)
    (hf : get_feature s unit = some f)
    (hmu : q.alpha * service + (1 - q.alpha) * f.mu_est ≤ 0) :
    q.update_feature s unit arrival service
      = (.error "Service rate must be positive", s) := by
  have hgoc : get_or_create_feature s unit 1 10 = (.ok f, s) := by
    unfold get_or_create_feature
    simp only [hf]
  have hcr : calculate_rho (q.alpha * arrival + (1 - q.alpha) * f.lambda_est)
      (q.alpha * service + (1 - q.alpha) * f.mu_est)
      = .error "Service rate must be positive" := by
    unfold calculate_rho
    rw [if_pos hmu]
  unfold QueueingService.update_feature
  simp only [hgoc, hcr]

/-- Witness for C4 (amended): μ = 10, α = 0.3, observed service rate −30
gives μ' = −2 ≤ 0; the call fails and the store is untouched. -/
theorem observe_error_on_smoothed_rate_witness :
    default_service.update_feature ⟨[], [⟨"u", 1, 10, mkRat 1 10⟩], []⟩ "u" 5 (-30)
      = (.error "Service rate must be positive", ⟨[], [⟨"u", 1, 10, mkRat 1 10⟩], []⟩) :=
  observe_error_on_smoothed_rate default_service ⟨[], [⟨"u", 1, 10, mkRat 1 10⟩], []⟩
    "u" 5 (-30) ⟨"u", 1, 10, mkRat 1 10⟩ (by decide)
    (by norm_num [default_service, Rat.mkRat_eq_div])

/-- C5: for any observation with a positive service rate on a unit whose
seed μ is positive (the stored estimate, or the default 10 for a fresh
unit), `update_feature` produces exactly λ' = α·λ_obs + (1-α)·λ,
μ' = α·μ_obs + (1-α)·μ and ρ' = min(λ'/μ', 0.99); consequently ρ' ≤ 0.99,
and the updated feature is what the store then holds for the unit. -/
theorem observe_ewma_formula (q : QueueingService) (s : Store) (unit : String)
    (arrival service : ℚ)
    (ha0 : 0 < q.alpha) (ha1 : q.alpha < 1) (hs : 0 < service)
    (hseed : 0 < (seed_of s unit).2) :
    ∃ f', (q.update_feature s unit arrival service).1 = .ok f' ∧
      f'.lambda_est = q.alpha * arrival + (1 - q.alpha) * (seed_of s unit).1 ∧
      f'.mu_est = q.alpha * service + (1 - q.alpha) * (seed_of s unit).2 ∧
      f'.rho = min (f'.lambda_est / f'.mu_est) (mkRat 99 100) ∧
      f'.rho ≤ mkRat 99 100 ∧
      get_feature (q.update_feature s unit arrival service).2 unit = some f' := by
  have hmu : 0 < q.alpha * service + (1 - q.alpha) * (seed_of s unit).2 := by
    have h1 : 0 < q.alpha * service := mul_pos ha0 hs
    have h2 : 0 < (1 - q.alpha) * (seed_of s unit).2 :=
      mul_pos (by linarith) hseed
    linarith
  obtain ⟨f', h1, -, h3, h4, h5, h6⟩ :=
    update_feature_ok q s unit arrival service hmu
  exact ⟨f', h1, h3, h4, h5, h5 ▸ min_le_right _ _, h6⟩

/-- Witness for C5: a stored unit (λ=1, μ=10) observed at (5, 20) under the
default α = 0.3. -/
theorem observe_ewma_formula_witness :
    ∃ f', (default_service.update_feature ⟨[], [⟨"u", 1, 10, mkRat 1 10⟩], []⟩
        "u" 5 20).1 = .ok f' ∧
      f'.lambda_est = default_service.alpha * 5
        + (1 - default_service.alpha)
          * (seed_of ⟨[], [⟨"u", 1, 10, mkRat 1 10⟩], []⟩ "u").1 ∧
      f'.mu_est = default_service.alpha * 20
        + (1 - default_service.alpha)
          * (seed_of ⟨[], [⟨"u", 1, 10, mkRat 1 10⟩], []⟩ "u").2 ∧
      f'.rho = min (f'.lambda_est / f'.mu_est) (mkRat 99 100) ∧
      f'.rho ≤ mkRat 99 100 ∧
      get_feature (default_service.update_feature ⟨[], [⟨"u", 1, 10, mkRat 1 10⟩], []⟩
        "u" 5 20).2 "u" = some f' :=
  observe_ewma_formula default_service ⟨[], [⟨"u", 1, 10, mkRat 1 10⟩], []⟩ "u" 5 20
    (by decide) (by decide) (by decide) (by decide)

/-- C8: setting a rule to its current state is a complete no-op — the call
returns the stored rule with its timestamp untouched (the ORM issues no
UPDATE when the value does not net-change) and the store, receipts included,
is exactly as before. -/
theorem set_rule_noop (s : Store) (rule_key changed_by : String) (now : Nat)
    (r : Rule) (hr : get_rule s rule_key = some r)
    (hv : r.value = 0 ∨ r.value = 1) :
    set_rule s rule_key r.is_enabled true changed_by now = (.ok r, s) := by
  have hval : r.value = (if r.is_enabled then (1:Int) else 0) := by
    rcases hv with h | h <;> simp [Rule.is_enabled, h]
  have hrep : replace_rule s.rules rule_key r = s.rules :=
    replace_rule_self s.rules rule_key r hr
  unfold set_rule
  simp only [hr]
  rw [if_pos hval]
  simp only [bne_self_eq_false, Bool.and_false, if_neg (by simp : ¬ false = true)]
  rw [hrep]

/-- Witness for C8: re-enabling an already enabled rule. -/
theorem set_rule_noop_witness :
    set_rule ⟨[⟨"writes_require_approval", 1, 7⟩], [], []⟩ "writes_require_approval"
        true true "admin" 99
      = (.ok ⟨"writes_require_approval", 1, 7⟩,
          ⟨[⟨"writes_require_approval", 1, 7⟩], [], []⟩) :=
  set_rule_noop ⟨[⟨"writes_require_approval", 1, 7⟩], [], []⟩ "writes_require_approval"
    "admin" 99 ⟨"writes_require_approval", 1, 7⟩ (by decide) (Or.inr (by decide))

/-- Lazy feature creation never touches the receipts table. -/
theorem get_or_create_receipts (s : Store) (unit : String) (l m : ℚ) :
    (get_or_create_feature s unit l m).2.receipts = s.receipts := by
  unfold get_or_create_feature
  split
  · rfl
  · split
    · rfl
    · split <;> rfl

/-- Observations never touch the receipts table. -/
theorem update_feature_receipts (q : QueueingService) (s : Store)
    (unit : String) (a sv : ℚ) :
    (q.update_feature s unit a sv).2.receipts = s.receipts := by
  have hg := get_or_create_receipts s unit 1 10
  unfold QueueingService.update_feature
  split
  · rename_i heq
    rw [heq] at hg
    exact hg
  · rename_i heq
    rw [heq] at hg
    simp only []
    split
    · exact hg
    · exact hg

/-- Protection-level queries never touch the receipts table. -/
theorem get_protection_level_receipts (q : QueueingService) (s : Store)
    (unit : String) :
    (q.get_protection_level s unit).2.receipts = s.receipts := by
  have hg := get_or_create_receipts s unit 1 10
  unfold QueueingService.get_protection_level
  split
  · rename_i heq
    rw [heq] at hg
    exact hg
  · rename_i heq
    rw [heq] at hg
    exact hg

/-- A rule toggle only ever appends to the receipts table. -/
theorem set_rule_receipts (s : Store) (k : String) (e cr : Bool)
    (cb : String) (now : Nat) :
    ∃ t, (set_rule s k e cr cb now).2.receipts = s.receipts ++ t := by
  unfold set_rule
  split
  · exact ⟨[], by simp⟩
  · dsimp only
    split
    · exact ⟨_, rfl⟩
    · exact ⟨[], by simp⟩

/-- A toggle via `toggle_rule` only ever appends to the receipts table. -/
theorem toggle_rule_receipts (s : Store) (k : String) (cr : Bool)
    (cb : String) (now : Nat) :
    ∃ t, (toggle_rule s k cr cb now).2.receipts = s.receipts ++ t := by
  unfold toggle_rule
  split
  · exact ⟨[], by simp⟩
  · exact set_rule_receipts s k _ cr cb now

/-- Every single public operation leaves the stored receipts as a prefix of
the resulting receipts. -/
theorem step_receipts (q : QueueingService) (s : Store) (op : Op) :
    ∃ t, (step q s op).receipts = s.receipts ++ t := by
  cases op with
  | evalAction a => exact ⟨[], by simp [step]⟩
  | doSetRule k e cr cb now => exact set_rule_receipts s k e cr cb now
  | doToggleRule k cr cb now => exact toggle_rule_receipts s k cr cb now
  | observe u a sv => exact ⟨[], by simp [step, update_feature_receipts]⟩
  | queryLevel u => exact ⟨[], by simp [step, get_protection_level_receipts]⟩
  | queryRelax u => exact ⟨[], by simp [step]⟩

/-- Receipts already stored survive any sequence of public operations. -/
theorem run_receipts_append (q : QueueingService) (ops : List Op) (s : Store) :
    ∃ t, (run q s ops).receipts = s.receipts ++ t := by
  induction ops generalizing s with
  | nil => exact ⟨[], by simp [run]⟩
  | cons op ops ih =>
    obtain ⟨t1, h1⟩ := step_receipts q s op
    obtain ⟨t2, h2⟩ := ih (step q s op)
    refine ⟨t1 ++ t2, ?_⟩
    show (run q (step q s op) ops).receipts = _
    rw [h2, h1, List.append_assoc]

/-- C7: a persisted receipt is never altered by any public operation — after
any sequence of evaluations, toggles, observations and queries the old
receipts list is a prefix of the new one (so every stored receipt keeps its
decision, reason, rules and signature fields), and a state-changing rule
toggle appends a brand-new POLICY_CHANGE receipt instead of editing any
existing one. -/
theorem receipts_immutable (q : QueueingService) :
    (∀ (s : Store) (ops : List Op) (r : Receipt),
      r ∈ s.receipts → r ∈ (run q s ops).receipts) ∧
    (∀ (s : Store) (ops : List Op),
      ∃ t, (run q s ops).receipts = s.receipts ++ t) ∧
    (∀ (s : Store) (rule_key changed_by : String) (now : Nat) (rl : Rule),
      get_rule s rule_key = some rl →
      (set_rule s rule_key (!rl.is_enabled) true changed_by now).2.receipts
        = s.receipts
          ++ [policy_change_receipt rule_key rl.is_enabled (!rl.is_enabled) changed_by] ∧
      (policy_change_receipt rule_key rl.is_enabled (!rl.is_enabled) changed_by).decision
        = "POLICY_CHANGE") := by
  refine ⟨?_, fun s ops => run_receipts_append q ops s, ?_⟩
  · intro s ops r hr
    obtain ⟨t, ht⟩ := run_receipts_append q ops s
    rw [ht]
    exact List.mem_append_left t hr
  · intro s rule_key changed_by now rl hrl
    refine ⟨?_, rfl⟩
    unfold set_rule
    simp only [hrl]
    rw [if_pos (by simp : (true && (rl.is_enabled != !rl.is_enabled)) = true)]

/-- Witness for C7: one concrete toggle on a store holding one receipt. -/
theorem receipts_immutable_witness :
    ((⟨"a", "x", "ALLOW", [], "ok", none⟩ : Receipt) ∈
      (run default_service
        ⟨[⟨"writes_require_approval", 0, 3⟩], [], [⟨"a", "x", "ALLOW", [], "ok", none⟩]⟩
        [Op.doSetRule "writes_require_approval" true true "admin" 5]).receipts) ∧
    (set_rule ⟨[⟨"writes_require_approval", 0, 3⟩], [], [⟨"a", "x", "ALLOW", [], "ok", none⟩]⟩
        "writes_require_approval" true true "admin" 5).2.receipts
      = [(⟨"a", "x", "ALLOW", [], "ok", none⟩ : Receipt)]
        ++ [policy_change_receipt "writes_require_approval" false true "admin"] :=
  ⟨((receipts_immutable default_service).1
      ⟨[⟨"writes_require_approval", 0, 3⟩], [], [⟨"a", "x", "ALLOW", [], "ok", none⟩]⟩
      [Op.doSetRule "writes_require_approval" true true "admin" 5]
      ⟨"a", "x", "ALLOW", [], "ok", none⟩ (by simp)),
   ((receipts_immutable default_service).2.2
      ⟨[⟨"writes_require_approval", 0, 3⟩], [], [⟨"a", "x", "ALLOW", [], "ok", none⟩]⟩
      "writes_require_approval" "admin" 5 ⟨"writes_require_approval", 0, 3⟩
      (by decide)).1⟩

/-- C6: round-trip — verifying a freshly signed receipt (before its expiry,
when one was requested) succeeds and returns a payload equal to the input
claims except for the added `iat` field, plus `exp` exactly when a nonzero
expiry was requested at signing. -/
theorem sign_verify_round_trip (secret : String) (data : List (String × String))
    (now : Nat) (expiry_hours : Option Nat) (verify_time : Nat)
    (hexp : match expiry_hours with
      | some h => h = 0 ∨ verify_time < now + h * 3600
      | none => True) :
    verify_receipt secret (sign_receipt secret data now expiry_hours) verify_time true
      = .ok { claims := data, iat := now,
              exp := match expiry_hours with
                | some h => if h = 0 then none else some (now + h * 3600)
                | none => none } := by
  unfold verify_receipt sign_receipt
  dsimp only
  rw [if_neg (by simp)]
  cases expiry_hours with
  | none => simp [jwt_expired]
  | some h =>
    by_cases hz : h = 0
    · simp [hz, jwt_expired]
    · have hlt : verify_time < now + h * 3600 := by
        rcases hexp with h0 | h1
        · exact absurd h0 hz
        · exact h1
      simp [hz, jwt_expired, Nat.not_le.mpr hlt]

/-- Witness for C6 with a 1-hour expiry, verified at a time before expiry. -/
theorem sign_verify_round_trip_witness :
    verify_receipt "0123456789abcdef0123456789abcdef"
        (sign_receipt "0123456789abcdef0123456789abcdef"
          [("decision", "ALLOW"), ("subject", "agent-42")] 1000 (some 1)) 1500 true
      = .ok { claims := [("decision", "ALLOW"), ("subject", "agent-42")],
              iat := 1000, exp := some 4600 } :=
  sign_verify_round_trip "0123456789abcdef0123456789abcdef"
    [("decision", "ALLOW"), ("subject", "agent-42")] 1000 (some 1) 1500
    (Or.inr (by decide))

/-- Witness for C2 (amended) at ρ = 0.7 with the default configuration. -/
theorem protection_level_fixed_thresholds_witness :
    QueueingService.get_protection_level ⟨mkRat 3 10, mkRat 6 10, mkRat 9 10⟩
        ⟨[], [⟨"u", 7, 10, mkRat 7 10⟩], []⟩ "u"
      = (.ok (spec_level (mkRat 6 10) (mkRat 9 10) (mkRat 7 10)),
          ⟨[], [⟨"u", 7, 10, mkRat 7 10⟩], []⟩) :=
  protection_level_fixed_thresholds ⟨mkRat 3 10, mkRat 6 10, mkRat 9 10⟩
    ⟨[], [⟨"u", 7, 10, mkRat 7 10⟩], []⟩ "u" ⟨"u", 7, 10, mkRat 7 10⟩ (by decide)

end UTC
